import Mathlib

/-!
Verification of the funding-rate arbitrage repository (mofuku/funding-arb).

Shallow embedding of the core logic:
  models (src/models/opportunity_scorer.py), the backtest lifecycle engine
  (src/backtest.py) and the two-leg executor (src/execution/executor.py).

Conventions of the embedding:
  * Python floats are modelled as exact rationals; decimal literals such as
    0.0004 denote the exact rational 4/10000.
  * Python str is modelled as Lean String (in this toolchain a wrapper around
    List Char); symbol.endswith(suffix) is List.isSuffixOf on the character
    lists and symbol[:-len(suffix)] is List.take.
  * Stateful methods become explicit state passing; a Python method that can
    raise becomes a function returning the unchanged state together with an
    Except value (an exception leaves the objects it did not reach untouched,
    which the pair makes observable).
  * Wall-clock inputs (time.time(), datetime.utcnow()) become explicit
    parameters; fields derived only from them and not used by any claim
    (Opportunity.timestamp, the symbol / period_days / annualized_return
    entries of run_backtest, which depend only on the input symbol,
    timestamps and total_pnl) are omitted with a note at the definition.
-/

/-! ## Configuration (src/config.py) -/

/-- CostModel from src/config.py: per-exchange maker/taker fees, slippage
estimate and default borrow APR. -/
structure CostModel where
  binance_maker : ℚ
  binance_taker : ℚ
  bybit_maker : ℚ
  bybit_taker : ℚ
  hyperliquid_maker : ℚ
  hyperliquid_taker : ℚ
  okx_maker : ℚ
  okx_taker : ℚ
  slippage_estimate : ℚ
  default_borrow_apr : ℚ
deriving DecidableEq

/-- Default CostModel field values from src/config.py. -/
def defaultCosts : CostModel where
  binance_maker := 0.0002
  binance_taker := 0.0004
  bybit_maker := 0.0002
  bybit_taker := 0.00055
  hyperliquid_maker := 0.0002
  hyperliquid_taker := 0.0005
  okx_maker := 0.0002
  okx_taker := 0.0005
  slippage_estimate := 0.0005
  default_borrow_apr := 0.30

/-- TradingConfig from src/config.py (the two fields read by the scorer). -/
structure TradingConfig where
  min_net_yield_pct : ℚ
  min_funding_rate : ℚ
deriving DecidableEq

/-- Default TradingConfig values from src/config.py. -/
def defaultTrading : TradingConfig where
  min_net_yield_pct := 50.0
  min_funding_rate := -0.0015

/-- Config from src/config.py (the parts the scorer reads; the exchange
credential blocks are irrelevant to the scorer). -/
structure Config where
  trading : TradingConfig
  costs : CostModel
  symbol_whitelist : List String

/-- Default symbol whitelist from src/config.py. -/
def defaultWhitelist : List String :=
  ["BTC", "ETH", "SOL", "DOGE", "XRP", "ADA", "AVAX", "LINK",
   "DOT", "MATIC", "UNI", "ATOM", "LTC", "BCH", "APT", "ARB",
   "OP", "INJ", "SUI", "SEI", "TIA", "JUP", "PYTH", "JTO",
   "WIF", "BONK", "PEPE", "SHIB", "FIL", "NEAR", "RENDER"]

/-- The configuration produced by load_config() with no environment
overrides (credentials do not affect the scorer). -/
def defaultConfig : Config where
  trading := defaultTrading
  costs := defaultCosts
  symbol_whitelist := defaultWhitelist

/-! ## Opportunity scorer (src/models/opportunity_scorer.py) -/

/-- Input record for calculate_opportunity: the rate_data dict
with keys exchange, symbol, rate. -/
structure RateData where
  exchange : String
  symbol : String
  rate : ℚ
deriving DecidableEq

/-- Opportunity dataclass from src/models/opportunity_scorer.py.
The timestamp field (datetime.utcnow().isoformat(), pure wall clock,
unused by every claim) is omitted. -/
structure Opportunity where
  exchange : String
  symbol : String
  base_asset : String
  funding_rate : ℚ
  funding_annualized : ℚ
  entry_cost : ℚ
  exit_cost : ℚ
  slippage_cost : ℚ
  borrow_cost_8h : ℚ
  net_yield_8h : ℚ
  net_yield_annualized : ℚ
  liquidity_score : ℚ
deriving DecidableEq

/-- OpportunityScorer.get_fees: dict lookup with default (0.0005, 0.0005);
returns (maker_fee, taker_fee). -/
def get_fees (costs : CostModel) (exchange : String) : ℚ × ℚ :=
  let fee_map : List (String × (ℚ × ℚ)) :=
    [("binance", (costs.binance_maker, costs.binance_taker)),
     ("bybit", (costs.bybit_maker, costs.bybit_taker)),
     ("hyperliquid", (costs.hyperliquid_maker, costs.hyperliquid_taker)),
     ("okx", (costs.okx_maker, costs.okx_taker))]
  (fee_map.lookup exchange).getD (0.0005, 0.0005)

/-- Python str.endswith on the character lists. -/
def pyEndsWith (s suf : String) : Bool :=
  List.isSuffixOf suf.data s.data

/-- Python symbol[:-len(suffix)]: drop the last len(suffix) characters. -/
def pyStripSuffix (s suf : String) : String :=
  ⟨s.data.take (s.data.length - suf.data.length)⟩

/-- The suffix list of OpportunityScorer.extract_base_asset (and of
extract_base in src/monitor.py), in source order. -/
def suffixList : List String :=
  ["USDT", "USD", "PERP", "-USDT-SWAP", "-USD-SWAP"]

/-- OpportunityScorer.extract_base_asset: the first suffix of the list that
matches is stripped; if none matches the symbol is returned unchanged. -/
def extract_base_asset (symbol : String) : String :=
  match suffixList.find? (fun suf => pyEndsWith symbol suf) with
  | some suf => pyStripSuffix symbol suf
  | none => symbol

/-- extract_base from src/monitor.py: same loop, same list. -/
def extract_base (symbol : String) : String :=
  match suffixList.find? (fun suf => pyEndsWith symbol suf) with
  | some suf => pyStripSuffix symbol suf
  | none => symbol

/-- The same stripping with the suffix list reordered longest first; written
from the words of the spec (longest / most specific suffix checked first)
to compare against the source order. -/
def extract_base_asset_longest_first (symbol : String) : String :=
  match (["-USDT-SWAP", "-USD-SWAP", "USDT", "USD", "PERP"] : List String).find?
      (fun suf => pyEndsWith symbol suf) with
  | some suf => pyStripSuffix symbol suf
  | none => symbol

/-- OpportunityScorer.is_whitelisted. -/
def is_whitelisted (config : Config) (symbol : String) : Bool :=
  config.symbol_whitelist.contains (extract_base_asset symbol)

/-- The major-asset set used for the placeholder liquidity score. -/
def majorAssets : List String := ["BTC", "ETH", "SOL", "XRP", "DOGE"]

/-- OpportunityScorer.calculate_opportunity: filters (non-negative rate,
whitelist, minimum funding threshold) and the cost / net-yield arithmetic,
translated line by line from src/models/opportunity_scorer.py. -/
def calculate_opportunity (config : Config) (rate_data : RateData) :
    Option Opportunity :=
  let exchange := rate_data.exchange
  let symbol := rate_data.symbol
  let funding_rate := rate_data.rate
  if funding_rate ≥ 0 then none
  else if ¬ (is_whitelisted config symbol = true) then none
  else if funding_rate > config.trading.min_funding_rate then none
  else
    let base_asset := extract_base_asset symbol
    let fees := get_fees config.costs exchange
    let maker_fee := fees.1
    let taker_fee := fees.2
    let entry_cost := 2 * taker_fee
    let exit_cost := 2 * maker_fee
    let slippage_cost := config.costs.slippage_estimate * 2
    let borrow_cost_8h := config.costs.default_borrow_apr / (3 * 365)
    let funding_received := -funding_rate
    let periods : ℚ := 3
    let amortized_entry_exit := (entry_cost + exit_cost + slippage_cost) / periods
    let net_yield_8h := funding_received - borrow_cost_8h - amortized_entry_exit
    let net_yield_annualized := net_yield_8h * 3 * 365 * 100
    let liquidity_score : ℚ := if majorAssets.contains base_asset then 0.9 else 0.5
    some
      { exchange := exchange
        symbol := symbol
        base_asset := base_asset
        funding_rate := funding_rate
        funding_annualized := funding_rate * 3 * 365 * 100
        entry_cost := entry_cost
        exit_cost := exit_cost
        slippage_cost := slippage_cost
        borrow_cost_8h := borrow_cost_8h
        net_yield_8h := net_yield_8h
        net_yield_annualized := net_yield_annualized
        liquidity_score := liquidity_score }

/-- The list comprehension part of OpportunityScorer.score_all: score each
record, keep it when an opportunity is produced and its net annualized yield
reaches min_net_yield_pct (a dataclass instance is always truthy, so the
Python condition is exactly this). -/
def scoreFilter (config : Config) (rates : List RateData) : List Opportunity :=
  rates.filterMap (fun rate =>
    match calculate_opportunity config rate with
    | some opp =>
        if opp.net_yield_annualized ≥ config.trading.min_net_yield_pct then some opp
        else none
    | none => none)

/-- Stable descending insertion for one element: the new element (which came
earlier in the original list than everything currently in the accumulator)
goes in front of the first element whose key is not larger. -/
def insertStableDesc (key : Opportunity → ℚ) (a : Opportunity) :
    List Opportunity → List Opportunity
  | [] => [a]
  | b :: l => if key b ≤ key a then a :: b :: l else b :: insertStableDesc key a l

/-- Stable descending sort by a rational key. Python list.sort with a key and
reverse=True is exactly the stable descending sort, and the stable descending
sort of a list is unique (each element is placed by key, ties by original
position), so this insertion sort has the same input/output behaviour as the
Timsort call in the source. -/
def stableSortDesc (key : Opportunity → ℚ) : List Opportunity → List Opportunity
  | [] => []
  | a :: l => insertStableDesc key a (stableSortDesc key l)

/-- OpportunityScorer.score_all: filter and score, then
opportunities.sort(key=lambda x: x.net_yield_annualized, reverse=True). -/
def score_all (config : Config) (rates : List RateData) : List Opportunity :=
  stableSortDesc (fun x => x.net_yield_annualized) (scoreFilter config rates)

/-! ## Backtest lifecycle engine (src/backtest.py) -/

/-- BacktestConfig dataclass from src/backtest.py with its default values. -/
structure BacktestConfig where
  entry_threshold : ℚ := -0.0015
  exit_threshold : ℚ := -0.0005
  entry_cost : ℚ := 0.001
  exit_cost : ℚ := 0.0004
  slippage : ℚ := 0.001
  borrow_rate_8h : ℚ := 0.000274
  position_size : ℚ := 1000
  max_positions : ℕ := 3
deriving DecidableEq

/-- The default BacktestConfig (all dataclass defaults). -/
def defaultBacktestConfig : BacktestConfig := {}

/-- One completed trade record appended by run_backtest on a close.
The dict entry_time / exit_time values are the timestamps at the entry and
exit row indices; since the input series is modelled by its (already
time-sorted) rate list, the indices themselves are stored.
avg_funding stores the entry rate, exactly as in the source. -/
structure Trade where
  entry_idx : ℕ
  exit_idx : ℕ
  periods : ℕ
  avg_funding : ℚ
  funding_collected : ℚ
  costs : ℚ
  pnl : ℚ
  pnl_pct : ℚ
deriving DecidableEq

/-- The mutable simulation state of the run_backtest loop. -/
structure BTState where
  position_open : Bool
  entry_rate : ℚ
  entry_idx : ℕ
  trades : List Trade
  total_pnl : ℚ
  total_funding : ℚ
  total_costs : ℚ
deriving DecidableEq

/-- Initial simulation state of run_backtest. -/
def btInit : BTState where
  position_open := false
  entry_rate := 0
  entry_idx := 0
  trades := []
  total_pnl := 0
  total_funding := 0
  total_costs := 0

/-- The per-trade funding sum of run_backtest:
sum(-fundingRate[j] * position_size for j in range(a, b + 1)). -/
def tradeFunding (cfg : BacktestConfig) (rates : List ℚ) (a b : ℕ) : ℚ :=
  ((List.range' a (b + 1 - a)).map
    (fun j => -(rates.getD j 0) * cfg.position_size)).sum

/-- One iteration of the run_backtest loop at row index i with rate value
rate, translated line by line from src/backtest.py. -/
def btStep (cfg : BacktestConfig) (rates : List ℚ) (s : BTState) (i : ℕ)
    (rate : ℚ) : BTState :=
  if s.position_open = false then
    if rate < cfg.entry_threshold then
      { s with
          position_open := true
          entry_rate := rate
          entry_idx := i
          total_costs := s.total_costs + (cfg.entry_cost + cfg.slippage) * cfg.position_size }
    else s
  else
    let funding_received := -rate * cfg.position_size
    let tf := s.total_funding + funding_received
    let tc := s.total_costs + cfg.borrow_rate_8h * cfg.position_size
    if rate > cfg.exit_threshold then
      let tc2 := tc + cfg.exit_cost * cfg.position_size
      let periods := i - s.entry_idx
      let trade_funding := tradeFunding cfg rates s.entry_idx i
      let trade_costs :=
        (cfg.entry_cost + cfg.exit_cost + cfg.slippage) * cfg.position_size
          + cfg.borrow_rate_8h * cfg.position_size * (periods : ℚ)
      let trade_pnl := trade_funding - trade_costs
      { position_open := false
        entry_rate := s.entry_rate
        entry_idx := s.entry_idx
        trades := s.trades ++
          [{ entry_idx := s.entry_idx
             exit_idx := i
             periods := periods
             avg_funding := s.entry_rate
             funding_collected := trade_funding
             costs := trade_costs
             pnl := trade_pnl
             pnl_pct := trade_pnl / cfg.position_size * 100 }]
        total_pnl := s.total_pnl + trade_pnl
        total_funding := tf
        total_costs := tc2 }
    else
      { s with total_funding := tf, total_costs := tc }

/-- The run_backtest loop: walk the remaining rows, carrying the row index.
The full rate list is carried separately because a close reads the whole
entry..exit slice of the series. -/
def btGo (cfg : BacktestConfig) (rates : List ℚ) :
    ℕ → List ℚ → BTState → BTState
  | _, [], s => s
  | i, r :: rest, s => btGo cfg rates (i + 1) rest (btStep cfg rates s i r)

/-- Final simulation state of run_backtest on a rate series. -/
def btFinal (cfg : BacktestConfig) (rates : List ℚ) : BTState :=
  btGo cfg rates 0 rates btInit

/-- The metrics dict returned by run_backtest. The symbol, period_days and
annualized_return entries are omitted: they depend only on the input symbol,
the first and last timestamps and total_pnl, never on the loop state, and no
claim mentions them. trades holds trades[-10:], the last ten records. -/
structure BacktestResult where
  data_points : ℕ
  total_trades : ℕ
  total_funding : ℚ
  total_costs : ℚ
  total_pnl : ℚ
  pnl_per_trade : ℚ
  win_rate : ℚ
  avg_hold_periods : ℚ
  trades : List Trade
deriving DecidableEq

/-- run_backtest from src/backtest.py: empty input returns the error dict
(modelled as none); otherwise the loop runs and the metrics dict is built,
with each zero-trade metric guarded exactly as the Python conditionals
guard it. -/
def run_backtest (cfg : BacktestConfig) (rates : List ℚ) :
    Option BacktestResult :=
  if rates.isEmpty then none
  else
    let s := btFinal cfg rates
    some
      { data_points := rates.length
        total_trades := s.trades.length
        total_funding := s.total_funding
        total_costs := s.total_costs
        total_pnl := s.total_pnl
        pnl_per_trade :=
          if s.trades.isEmpty then 0 else s.total_pnl / (s.trades.length : ℚ)
        win_rate :=
          if s.trades.isEmpty then 0
          else ((s.trades.filter (fun t => t.pnl > 0)).length : ℚ)
            / (s.trades.length : ℚ) * 100
        avg_hold_periods :=
          if s.trades.isEmpty then 0
          else ((s.trades.map Trade.periods).sum : ℚ) / (s.trades.length : ℚ)
        trades := s.trades.drop (s.trades.length - 10) }

/-! ## Two-leg executor (src/execution/executor.py) -/

/-- Side enum. -/
inductive Side where
  | LONG
  | SHORT
deriving DecidableEq

/-- OrderType enum. -/
inductive OrderType where
  | MARKET
  | LIMIT
deriving DecidableEq

/-- Order dataclass with its defaults. -/
structure Order where
  exchange : String
  symbol : String
  side : Side
  size : ℚ
  order_type : OrderType := OrderType.MARKET
  price : Option ℚ := none
  order_id : Option String := none
  status : String := "pending"
  fill_price : Option ℚ := none
  filled_size : ℚ := 0
deriving DecidableEq

/-- Position dataclass (one leg). entry_price is Option because the executor
stores the Optional fill_price of the fill into it; entry_time is the
time.time() value handed to the call as an explicit argument. -/
structure Position where
  exchange : String
  symbol : String
  side : Side
  size : ℚ
  entry_price : Option ℚ
  entry_time : ℚ
  pnl : ℚ := 0
  funding_collected : ℚ := 0
deriving DecidableEq

/-- ArbPosition dataclass: the combined delta-neutral position. -/
structure ArbPosition where
  id : String
  long_leg : Position
  short_leg : Position
  base_asset : String
  entry_time : ℚ
  target_funding_rate : ℚ
  total_funding_collected : ℚ := 0
  total_pnl : ℚ := 0
  status : String := "open"
deriving DecidableEq

/-- The ExchangeClient capability as ArbExecutor uses it: both executor
methods call only place_order, which either returns the (filled) order or
raises; a raise is an Except.error carrying the exception text. -/
structure Client where
  place_order : Order → Except String Order

/-- The executor state: the clients dict and the active_positions dict,
both modelled as insertion-ordered association lists exactly like Python
dicts. -/
structure ExecState where
  clients : List (String × Client)
  active_positions : List (String × ArbPosition)

/-- The exceptions ArbExecutor can surface: a KeyError from a clients dict
lookup, the ValueError raised by close_position on an unknown id, and an
exception propagated out of a leg place_order call by asyncio.gather.
The source defines no further exception type; in particular there is no
LegImbalanceError class anywhere in the repository. -/
inductive ExecError where
  | keyError (key : String)
  | valueError (msg : String)
  | orderError (msg : String)
deriving DecidableEq

/-- Python dict assignment d[k] = v: overwrite in place when the key exists,
append otherwise. -/
def dictInsert (l : List (String × ArbPosition)) (k : String) (v : ArbPosition) :
    List (String × ArbPosition) :=
  if l.any (fun p => p.1 == k) then
    l.map (fun p => if p.1 == k then (k, v) else p)
  else l ++ [(k, v)]

/-- The long entry order built by open_position (size is already
size_usd / 100). -/
def openLongOrder (long_exchange symbol : String) (size : ℚ) : Order :=
  { exchange := long_exchange
    symbol := symbol
    side := Side.LONG
    size := size
    order_type := OrderType.MARKET }

/-- The short entry order built by open_position. -/
def openShortOrder (short_exchange symbol : String) (size : ℚ) : Order :=
  { exchange := short_exchange
    symbol := symbol
    side := Side.SHORT
    size := size
    order_type := OrderType.MARKET }

/-- The ArbPosition open_position assembles from the two fill results.
now is the time.time() value of the call (pos_id uses its integer part,
which the model takes as the whole value). -/
def mkArbPosition (long_exchange short_exchange symbol base_asset : String)
    (funding_rate : ℚ) (now : ℕ) (long_result short_result : Order) :
    ArbPosition :=
  { id := "arb_" ++ toString now
    long_leg :=
      { exchange := long_exchange
        symbol := symbol
        side := Side.LONG
        size := long_result.filled_size
        entry_price := long_result.fill_price
        entry_time := (now : ℚ) }
    short_leg :=
      { exchange := short_exchange
        symbol := symbol
        side := Side.SHORT
        size := short_result.filled_size
        entry_price := short_result.fill_price
        entry_time := (now : ℚ) }
    base_asset := base_asset
    entry_time := (now : ℚ)
    target_funding_rate := funding_rate }

/-- ArbExecutor.open_position. Returns the executor state paired with the
outcome: on any exception the state component is the unchanged input state,
because the active_positions assignment is the last statement of the method.
asyncio.gather runs both place_order calls and, with return_exceptions left
False, re-raises a leg exception; when both legs raise, which exception
propagates depends on scheduling, and the model picks the long leg first
(no claim depends on that choice). -/
def open_position (st : ExecState)
    (long_exchange short_exchange symbol base_asset : String)
    (size_usd funding_rate : ℚ) (now : ℕ) :
    ExecState × Except ExecError ArbPosition :=
  match st.clients.lookup long_exchange with
  | none => (st, Except.error (ExecError.keyError long_exchange))
  | some long_client =>
    match st.clients.lookup short_exchange with
    | none => (st, Except.error (ExecError.keyError short_exchange))
    | some short_client =>
      let size := size_usd / 100
      match long_client.place_order (openLongOrder long_exchange symbol size),
            short_client.place_order (openShortOrder short_exchange symbol size) with
      | Except.error e, _ => (st, Except.error (ExecError.orderError e))
      | _, Except.error e => (st, Except.error (ExecError.orderError e))
      | Except.ok long_result, Except.ok short_result =>
        let arb_pos := mkArbPosition long_exchange short_exchange symbol
          base_asset funding_rate now long_result short_result
        ({ st with active_positions :=
            dictInsert st.active_positions arb_pos.id arb_pos },
         Except.ok arb_pos)

/-- The summary dict returned by close_position. -/
structure CloseSummary where
  pos_id : String
  total_funding : ℚ
  total_pnl : ℚ
deriving DecidableEq

/-- The closing order for the long leg (sell what the long leg holds). -/
def closeLongOrder (pos : ArbPosition) : Order :=
  { exchange := pos.long_leg.exchange
    symbol := pos.long_leg.symbol
    side := Side.SHORT
    size := pos.long_leg.size
    order_type := OrderType.MARKET }

/-- The closing order for the short leg (buy back what the short leg owes). -/
def closeShortOrder (pos : ArbPosition) : Order :=
  { exchange := pos.short_leg.exchange
    symbol := pos.short_leg.symbol
    side := Side.LONG
    size := pos.short_leg.size
    order_type := OrderType.MARKET }

/-- ArbExecutor.close_position. On an unknown id it raises ValueError and
touches nothing. Otherwise both closing legs are placed; an exception from a
leg propagates and leaves the table unchanged (the del statement comes after
the gather). On success the position object is mutated to status closed, the
id is deleted from active_positions and the summary dict is returned; the
mutated object is returned alongside the summary because the pure model has
no heap to hold it (Python leaves it to whoever still references it). -/
def close_position (st : ExecState) (pos_id : String) :
    ExecState × Except ExecError (ArbPosition × CloseSummary) :=
  match st.active_positions.lookup pos_id with
  | none => (st, Except.error (ExecError.valueError
      ("Position " ++ pos_id ++ " not found")))
  | some pos =>
    match st.clients.lookup pos.long_leg.exchange with
    | none => (st, Except.error (ExecError.keyError pos.long_leg.exchange))
    | some long_client =>
      match st.clients.lookup pos.short_leg.exchange with
      | none => (st, Except.error (ExecError.keyError pos.short_leg.exchange))
      | some short_client =>
        match long_client.place_order (closeLongOrder pos),
              short_client.place_order (closeShortOrder pos) with
        | Except.error e, _ => (st, Except.error (ExecError.orderError e))
        | _, Except.error e => (st, Except.error (ExecError.orderError e))
        | Except.ok _, Except.ok _ =>
          ({ st with active_positions :=
              st.active_positions.eraseP (fun p => p.1 == pos_id) },
           Except.ok ({ pos with status := "closed" },
             { pos_id := pos_id
               total_funding := pos.total_funding_collected
               total_pnl := pos.total_pnl }))

/-! ## Concrete instances used by the theorems below -/

/-- Binance rate record for ADAUSDT at rate -0.003. -/
def adaRD : RateData := { exchange := "binance", symbol := "ADAUSDT", rate := -0.003 }

/-- Binance rate record for BTCUSDT at the same rate -0.003. -/
def btcRD : RateData := { exchange := "binance", symbol := "BTCUSDT", rate := -0.003 }

/-- The rate series of the lifecycle test property in the spec. -/
def series5 : List ℚ := [-0.002, -0.0018, -0.0002, 0]

/-- Default backtest configuration with zero entry cost and zero slippage
(entry accrues nothing), used to compare runs that differ only in whether a
position is still open at the end. -/
def cfgNoEntryCost : BacktestConfig :=
  { defaultBacktestConfig with entry_cost := 0, slippage := 0 }

/-- A client that fills every order completely, as SimulatedClient does:
status filled, fill price order.price or 100, filled size = requested
size. -/
def fillClient : Client where
  place_order := fun order => Except.ok
    { order with
        status := "filled"
        fill_price := some (order.price.getD 100)
        filled_size := order.size
        order_id := some "sim" }

/-- A client whose place_order always raises (message boom). -/
def boomClient : Client where
  place_order := fun _ => Except.error "boom"

/-- A client that reports filling only half the requested size: a legal
return value of the ExchangeClient interface (filled_size is whatever the
venue reports). -/
def halfClient : Client where
  place_order := fun order => Except.ok
    { order with
        status := "filled"
        fill_price := some (order.price.getD 100)
        filled_size := order.size / 2
        order_id := some "sim" }

/-- Executor state in which the long venue fills and the short venue
raises. -/
def stShortFails : ExecState where
  clients := [("binance", fillClient), ("bybit", boomClient)]
  active_positions := []

/-- Executor state in which both venues raise. -/
def stBothFail : ExecState where
  clients := [("binance", boomClient), ("bybit", boomClient)]
  active_positions := []

/-- Executor state in which the long venue fills completely and the short
venue fills half. -/
def stHalfShort : ExecState where
  clients := [("binance", fillClient), ("bybit", halfClient)]
  active_positions := []

/-- The mismatched ArbPosition open_position builds on stHalfShort with
size_usd 1000 at time 7: the long leg filled the full 1000/100 = 10 units,
the short leg reported half, 1000/100/2 = 5. -/
def posMismatch : ArbPosition :=
  mkArbPosition "binance" "bybit" "SOLUSDT" "SOL" (-0.002) 7
    { exchange := "binance", symbol := "SOLUSDT", side := Side.LONG,
      size := 1000 / 100, order_type := OrderType.MARKET, price := none,
      order_id := some "sim", status := "filled", fill_price := some 100,
      filled_size := 1000 / 100 }
    { exchange := "bybit", symbol := "SOLUSDT", side := Side.SHORT,
      size := 1000 / 100, order_type := OrderType.MARKET, price := none,
      order_id := some "sim", status := "filled", fill_price := some 100,
      filled_size := 1000 / 100 / 2 }

/-- A concrete open delta-neutral position. -/
def posOpen1 : ArbPosition where
  id := "p1"
  long_leg :=
    { exchange := "binance", symbol := "SOLUSDT", side := Side.LONG, size := 10,
      entry_price := some 100, entry_time := 0 }
  short_leg :=
    { exchange := "bybit", symbol := "SOLUSDT", side := Side.SHORT, size := 10,
      entry_price := some 100, entry_time := 0 }
  base_asset := "SOL"
  entry_time := 0
  target_funding_rate := -0.002
  total_funding_collected := 3.5
  total_pnl := 1.25

/-- Executor state holding posOpen1 under key p1, with filling clients. -/
def stWithPos : ExecState where
  clients := [("binance", fillClient), ("bybit", fillClient)]
  active_positions := [("p1", posOpen1)]

/-! ## Invariant definitions for the backtest accounting proofs -/

/-- Sum of the funding_collected entries of a trade list. -/
def fcSum (ts : List Trade) : ℚ :=
  (ts.map Trade.funding_collected).sum

/-- Sum over a trade list of the entry-period funding of each trade
(avg_funding stores the entry rate). -/
def entrySum (cfg : BacktestConfig) (ts : List Trade) : ℚ :=
  (ts.map (fun t => -t.avg_funding * cfg.position_size)).sum

/-- Loop invariant of run_backtest relating the per-trade funding sums to
the running total_funding, at the point where row i is about to be
processed: while no position is open the two bookkeeping methods differ by
exactly the entry-period funding of each completed trade; while a position
is open, the funding it has accrued so far (rows entry_idx+1 .. i-1) is the
missing piece. -/
def btInv (cfg : BacktestConfig) (rates : List ℚ) (i : ℕ) (s : BTState) : Prop :=
  (∀ t ∈ s.trades,
      t.funding_collected = tradeFunding cfg rates t.entry_idx t.exit_idx)
  ∧ (s.position_open = false →
      fcSum s.trades = s.total_funding + entrySum cfg s.trades)
  ∧ (s.position_open = true →
      s.entry_idx < i ∧ s.entry_rate = rates.getD s.entry_idx 0 ∧
      fcSum s.trades + tradeFunding cfg rates (s.entry_idx + 1) (i - 1)
        = s.total_funding + entrySum cfg s.trades)

/-! ## Helper lemmas -/

/-- Two strings that cannot be suffixes of one another cannot both be
suffixes of the same string. -/
theorem suffix_excl {a b : String} (hab : ¬ (a.data <:+ b.data))
    (hba : ¬ (b.data <:+ a.data)) {s : String}
    (ha : pyEndsWith s a = true) (hb : pyEndsWith s b = true) : False := by
  unfold pyEndsWith at ha hb
  rw [List.isSuffixOf_iff_suffix] at ha hb
  rcases List.suffix_or_suffix_of_suffix ha hb with h | h
  · exact hab h
  · exact hba h

/-- Membership in a stable descending insertion. -/
theorem mem_insertStableDesc (key : Opportunity → ℚ) (a x : Opportunity) :
    ∀ l : List Opportunity, x ∈ insertStableDesc key a l → x = a ∨ x ∈ l := by
  intro l
  induction l with
  | nil => intro h; simpa [insertStableDesc] using h
  | cons b t ih =>
      intro h
      unfold insertStableDesc at h
      by_cases hc : key b ≤ key a
      · rw [if_pos hc, List.mem_cons] at h
        rcases h with h | h
        · exact Or.inl h
        · exact Or.inr h
      · rw [if_neg hc, List.mem_cons] at h
        rcases h with h | h
        · exact Or.inr (h ▸ List.mem_cons_self b t)
        · rcases ih h with h | h
          · exact Or.inl h
          · exact Or.inr (List.mem_cons_of_mem b h)

/-- Stable descending insertion preserves descending sortedness. -/
theorem insertStableDesc_pairwise (key : Opportunity → ℚ) (a : Opportunity) :
    ∀ l : List Opportunity,
      l.Pairwise (fun x y => key y ≤ key x) →
      (insertStableDesc key a l).Pairwise (fun x y => key y ≤ key x) := by
  intro l
  induction l with
  | nil => intro _; simp [insertStableDesc]
  | cons b t ih =>
      intro h
      rw [List.pairwise_cons] at h
      obtain ⟨hb, ht⟩ := h
      unfold insertStableDesc
      by_cases hc : key b ≤ key a
      · rw [if_pos hc]
        refine List.Pairwise.cons ?_ (List.Pairwise.cons hb ht)
        intro y hy
        rw [List.mem_cons] at hy
        rcases hy with hy | hy
        · exact hy ▸ hc
        · exact le_trans (hb y hy) hc
      · rw [if_neg hc]
        refine List.Pairwise.cons ?_ (ih ht)
        intro y hy
        rcases mem_insertStableDesc key a y t hy with h | h
        · subst h; exact le_of_lt (lt_of_not_le hc)
        · exact hb y h
  
/-- Stable descending insertion is a permutation of consing. -/
theorem insertStableDesc_perm (key : Opportunity → ℚ) (a : Opportunity) :
    ∀ l : List Opportunity, (insertStableDesc key a l).Perm (a :: l) := by
  intro l
  induction l with
  | nil => simp [insertStableDesc]
  | cons b t ih =>
      unfold insertStableDesc
      by_cases hc : key b ≤ key a
      · rw [if_pos hc]
      · rw [if_neg hc]
        exact (List.Perm.cons b ih).trans (List.Perm.swap a b t)

/-- The stable descending sort is sorted descending by the key. -/
theorem stableSortDesc_pairwise (key : Opportunity → ℚ) :
    ∀ l : List Opportunity,
      (stableSortDesc key l).Pairwise (fun x y => key y ≤ key x) := by
  intro l
  induction l with
  | nil => simp [stableSortDesc]
  | cons a t ih => exact insertStableDesc_pairwise key a _ ih

/-- The stable descending sort permutes its input. -/
theorem stableSortDesc_perm (key : Opportunity → ℚ) :
    ∀ l : List Opportunity, (stableSortDesc key l).Perm l := by
  intro l
  induction l with
  | nil => simp [stableSortDesc]
  | cons a t ih =>
      exact (insertStableDesc_perm key a _).trans (List.Perm.cons a ih)

/-- Elements of one key level are not reordered by a stable insertion. -/
theorem filter_insertStableDesc (key : Opportunity → ℚ) (a : Opportunity) (q : ℚ) :
    ∀ l : List Opportunity,
      (insertStableDesc key a l).filter (fun x => key x == q)
        = if key a == q then a :: l.filter (fun x => key x == q)
          else l.filter (fun x => key x == q) := by
  intro l
  induction l with
  | nil => by_cases h : key a == q <;> simp [insertStableDesc, List.filter, h]
  | cons b t ih =>
      unfold insertStableDesc
      by_cases hc : key b ≤ key a
      · rw [if_pos hc, List.filter_cons]
      · rw [if_neg hc]
        rw [List.filter_cons, List.filter_cons, ih]
        by_cases h : (key a == q) = true
        · have hne : (key b == q) = false := by
            rw [beq_iff_eq] at h
            rw [beq_eq_false_iff_ne]
            intro hbq
            exact hc (le_of_eq (h ▸ hbq))
          rw [if_pos h, if_pos h, hne]
          simp
        · rw [if_neg h, if_neg h]
  
/-- Elements of one key level are not reordered by the stable sort. -/
theorem filter_stableSortDesc (key : Opportunity → ℚ) (q : ℚ) :
    ∀ l : List Opportunity,
      (stableSortDesc key l).filter (fun x => key x == q)
        = l.filter (fun x => key x == q) := by
  intro l
  induction l with
  | nil => rfl
  | cons a t ih =>
      show (insertStableDesc key a (stableSortDesc key t)).filter _ = _
      rw [filter_insertStableDesc, ih, List.filter_cons]

/-- Reading off the head of a dropped suffix: the element at index i and the
remaining suffix. -/
theorem drop_eq_cons_parts :
    ∀ (l : List ℚ) (i : ℕ) (r : ℚ) (rest : List ℚ),
      l.drop i = r :: rest → l.getD i 0 = r ∧ l.drop (i + 1) = rest := by
  intro l
  induction l with
  | nil => intro i r rest h; rw [List.drop_nil] at h; exact absurd h (by simp)
  | cons a t ih =>
      intro i r rest h
      cases i with
      | zero =>
          rw [List.drop_zero] at h
          obtain ⟨h1, h2⟩ := List.cons.inj h
          constructor
          · rw [List.getD_cons_zero]; exact h1
          · rw [List.drop_succ_cons, List.drop_zero]; exact h2
      | succ n =>
          rw [List.drop_succ_cons] at h
          obtain ⟨h1, h2⟩ := ih n r rest h
          constructor
          · rw [List.getD_cons_succ]; exact h1
          · rw [List.drop_succ_cons]; exact h2

/-- Splitting the per-trade funding sum at its first index. -/
theorem tradeFunding_head (cfg : BacktestConfig) (rates : List ℚ) (a b : ℕ)
    (h : a ≤ b) :
    tradeFunding cfg rates a b
      = -(rates.getD a 0) * cfg.position_size + tradeFunding cfg rates (a + 1) b := by
  unfold tradeFunding
  have h1 : b + 1 - a = (b - a) + 1 := by omega
  have h2 : b + 1 - (a + 1) = b - a := by omega
  rw [h1, h2, List.range'_succ, List.map_cons, List.sum_cons]

/-- Extending the per-trade funding sum by its last index. -/
theorem tradeFunding_last (cfg : BacktestConfig) (rates : List ℚ) (a b : ℕ)
    (h : a ≤ b + 1) :
    tradeFunding cfg rates a (b + 1)
      = tradeFunding cfg rates a b + -(rates.getD (b + 1) 0) * cfg.position_size := by
  unfold tradeFunding
  have h1 : b + 1 + 1 - a = (b + 1 - a) + 1 := by omega
  rw [h1, List.range'_1_concat]
  have h2 : a + (b + 1 - a) = b + 1 := by omega
  rw [h2, List.map_append, List.sum_append, List.map_singleton, List.sum_singleton]

/-- The per-trade funding sum over an empty index range is zero. -/
theorem tradeFunding_empty (cfg : BacktestConfig) (rates : List ℚ) (a b : ℕ)
    (h : b + 1 ≤ a) : tradeFunding cfg rates a b = 0 := by
  unfold tradeFunding
  have h1 : b + 1 - a = 0 := by omega
  rw [h1]
  rfl

/-- A step from the initial state with a rate that does not cross the entry
threshold leaves the state initial. -/
theorem btStep_no_entry (cfg : BacktestConfig) (rates : List ℚ) (i : ℕ) (r : ℚ)
    (h : ¬ r < cfg.entry_threshold) : btStep cfg rates btInit i r = btInit := by
  unfold btStep btInit
  rw [if_pos rfl, if_neg h]

/-- If no rate of the remaining series crosses the entry threshold, the loop
never leaves the initial state. -/
theorem btGo_no_entry (cfg : BacktestConfig) (rates : List ℚ) :
    ∀ (l : List ℚ) (i : ℕ), (∀ r ∈ l, ¬ r < cfg.entry_threshold) →
      btGo cfg rates i l btInit = btInit
  | [], _, _ => rfl
  | r :: rest, i, h => by
      show btGo cfg rates (i + 1) rest (btStep cfg rates btInit i r) = btInit
      rw [btStep_no_entry cfg rates i r (h r (List.mem_cons_self r rest))]
      exact btGo_no_entry cfg rates rest (i + 1)
        (fun x hx => h x (List.mem_cons_of_mem r hx))

/-- Each loop step keeps total_pnl equal to the sum of the pnl entries of the
recorded trades: a position that has not closed has contributed nothing. -/
theorem btStep_pnl_sum (cfg : BacktestConfig) (rates : List ℚ) (s : BTState)
    (i : ℕ) (r : ℚ) (h : s.total_pnl = (s.trades.map Trade.pnl).sum) :
    (btStep cfg rates s i r).total_pnl
      = ((btStep cfg rates s i r).trades.map Trade.pnl).sum := by
  obtain ⟨po, er, ei, ts, tp, tfu, tco⟩ := s
  simp only at h
  unfold btStep
  by_cases hpo : po = false
  · rw [if_pos hpo]
    by_cases hr : r < cfg.entry_threshold
    · rw [if_pos hr]; exact h
    · rw [if_neg hr]; exact h
  · rw [if_neg hpo]
    by_cases hx : r > cfg.exit_threshold
    · rw [if_pos hx]
      simp only [List.map_append, List.sum_append, List.map_cons, List.map_nil,
        List.sum_cons, List.sum_nil, h]
      ring
    · rw [if_neg hx]; exact h

/-- The loop keeps total_pnl equal to the pnl sum of the recorded trades. -/
theorem btGo_pnl_sum (cfg : BacktestConfig) (rates : List ℚ) :
    ∀ (l : List ℚ) (i : ℕ) (s : BTState),
      s.total_pnl = (s.trades.map Trade.pnl).sum →
      (btGo cfg rates i l s).total_pnl
        = ((btGo cfg rates i l s).trades.map Trade.pnl).sum
  | [], _, _, h => h
  | r :: rest, i, s, h =>
      btGo_pnl_sum cfg rates rest (i + 1) (btStep cfg rates s i r)
        (btStep_pnl_sum cfg rates s i r h)

/-- One loop step preserves the funding-accounting invariant. -/
theorem btStep_inv (cfg : BacktestConfig) (rates : List ℚ) (i : ℕ)
    (s : BTState) (r : ℚ) (hr : rates.getD i 0 = r)
    (hinv : btInv cfg rates i s) :
    btInv cfg rates (i + 1) (btStep cfg rates s i r) := by
  obtain ⟨po, er, ei, ts, tp, tfu, tco⟩ := s
  obtain ⟨hwf0, hclosed0, hopen0⟩ := hinv
  have hwf : ∀ t ∈ ts, t.funding_collected = tradeFunding cfg rates t.entry_idx t.exit_idx := hwf0
  have hclosed : po = false → fcSum ts = tfu + entrySum cfg ts := hclosed0
  have hopen : po = true → ei < i ∧ er = rates.getD ei 0 ∧
      fcSum ts + tradeFunding cfg rates (ei + 1) (i - 1) = tfu + entrySum cfg ts := hopen0
  unfold btStep
  by_cases hpo : po = false
  · rw [if_pos hpo]
    by_cases hrate : r < cfg.entry_threshold
    · rw [if_pos hrate]
      refine ⟨hwf, ?_, ?_⟩
      · intro habs
        exact absurd habs (by simp)
      · intro _
        refine ⟨Nat.lt_succ_self i, hr.symm, ?_⟩
        show fcSum ts + tradeFunding cfg rates (i + 1) (i + 1 - 1) = tfu + entrySum cfg ts
        have h1 : i + 1 - 1 = i := by omega
        rw [h1, tradeFunding_empty cfg rates (i + 1) i (by omega), add_zero]
        exact hclosed hpo
    · rw [if_neg hrate]
      exact ⟨hwf, hclosed, fun habs => absurd habs (by simp [hpo])⟩
  · have hpo' : po = true := by revert hpo; cases po <;> simp
    rw [if_neg hpo]
    obtain ⟨hei, her, heq⟩ := hopen hpo'
    by_cases hexit : r > cfg.exit_threshold
    · rw [if_pos hexit]
      refine ⟨?_, ?_, ?_⟩
      · intro t ht
        rw [List.mem_append, List.mem_singleton] at ht
        rcases ht with ht | ht
        · exact hwf t ht
        · subst ht; rfl
      · intro _
        show fcSum (ts ++ [_]) = tfu + -r * cfg.position_size + entrySum cfg (ts ++ [_])
        have hfc : ∀ T : Trade, fcSum (ts ++ [T]) = fcSum ts + T.funding_collected := by
          intro T
          unfold fcSum
          rw [List.map_append, List.sum_append, List.map_singleton, List.sum_singleton]
        have hes : ∀ T : Trade, entrySum cfg (ts ++ [T])
            = entrySum cfg ts + -T.avg_funding * cfg.position_size := by
          intro T
          unfold entrySum
          rw [List.map_append, List.sum_append, List.map_singleton, List.sum_singleton]
        rw [hfc, hes]
        show fcSum ts + tradeFunding cfg rates ei i
          = tfu + -r * cfg.position_size + (entrySum cfg ts + -er * cfg.position_size)
        have hsplit : tradeFunding cfg rates ei i
            = -(rates.getD ei 0) * cfg.position_size + tradeFunding cfg rates (ei + 1) i :=
          tradeFunding_head cfg rates ei i (by omega)
        have hlast : tradeFunding cfg rates (ei + 1) i
            = tradeFunding cfg rates (ei + 1) (i - 1) + -(rates.getD i 0) * cfg.position_size := by
          have h1 : (i - 1) + 1 = i := by omega
          have h2 := tradeFunding_last cfg rates (ei + 1) (i - 1) (by omega)
          rw [h1] at h2
          exact h2
        rw [hsplit, hlast, ← her, hr]
        linarith [heq]
      · intro habs
        exact absurd habs (by simp)
    · rw [if_neg hexit]
      refine ⟨hwf, ?_, ?_⟩
      · intro habs
        exact absurd habs (by simp [hpo'])
      · intro _
        refine ⟨show ei < i + 1 by omega, her, ?_⟩
        show fcSum ts + tradeFunding cfg rates (ei + 1) (i + 1 - 1)
          = tfu + -r * cfg.position_size + entrySum cfg ts
        have h1 : i + 1 - 1 = i := by omega
        rw [h1]
        have hlast : tradeFunding cfg rates (ei + 1) i
            = tradeFunding cfg rates (ei + 1) (i - 1) + -(rates.getD i 0) * cfg.position_size := by
          have h2 : (i - 1) + 1 = i := by omega
          have h3 := tradeFunding_last cfg rates (ei + 1) (i - 1) (by omega)
          rw [h2] at h3
          exact h3
        rw [hlast, hr]
        linarith [heq]

/-- The loop preserves the funding-accounting invariant along any suffix of
the rate series. -/
theorem btGo_inv (cfg : BacktestConfig) (rates : List ℚ) :
    ∀ (l : List ℚ) (i : ℕ) (s : BTState),
      rates.drop i = l → btInv cfg rates i s →
      btInv cfg rates (i + l.length) (btGo cfg rates i l s)
  | [], i, s, _, hinv => by simpa using hinv
  | r :: rest, i, s, hdrop, hinv => by
      obtain ⟨hr, hrest⟩ := drop_eq_cons_parts rates i r rest hdrop
      have h2 := btGo_inv cfg rates rest (i + 1) (btStep cfg rates s i r) hrest
        (btStep_inv cfg rates i s r hr hinv)
      have h3 : i + (r :: rest).length = (i + 1) + rest.length := by
        rw [List.length_cons]; omega
      rw [h3]
      exact h2

/-- The invariant holds at the start of the loop. -/
theorem btInv_init (cfg : BacktestConfig) (rates : List ℚ) :
    btInv cfg rates 0 btInit := by
  refine ⟨?_, ?_, ?_⟩
  · intro t ht
    exact absurd ht (List.not_mem_nil t)
  · intro _
    show fcSum [] = 0 + entrySum cfg []
    unfold fcSum entrySum
    simp
  · intro habs
    exact Bool.noConfusion habs

/-- The invariant holds for the final state of the loop. -/
theorem btFinal_inv (cfg : BacktestConfig) (rates : List ℚ) :
    btInv cfg rates rates.length (btFinal cfg rates) := by
  have h := btGo_inv cfg rates rates 0 btInit (List.drop_zero rates) (btInv_init cfg rates)
  simpa using h

/-! ## Claim theorems -/

/-- Claim C5. Running the lifecycle engine on the rate series
[-0.002, -0.0018, -0.0002, 0] with the default thresholds
(entry -0.0015, exit -0.0005) opens exactly one position, at index 0
(entry accrues (entry_cost + slippage) * position_size = 2), holds it at
index 1 (funding 1.8 and borrow cost 0.274 accrue) and through index 2
(funding 0.2 and borrow 0.274 accrue before the exit check), closes it at
index 2, and records exactly one completed trade with periods = 2; index 3
stays idle and the final state is closed, so exactly one position ever
opens. -/
theorem backtest_series5_lifecycle :
    run_backtest defaultBacktestConfig series5 = some
      { data_points := 4
        total_trades := 1
        total_funding := 2
        total_costs := 2.948
        total_pnl := 1.052
        pnl_per_trade := 1.052
        win_rate := 100
        avg_hold_periods := 2
        trades := [{ entry_idx := 0, exit_idx := 2, periods := 2,
                     avg_funding := -0.002, funding_collected := 4,
                     costs := 2.948, pnl := 1.052, pnl_pct := 0.1052 }] }
    ∧ (btFinal defaultBacktestConfig series5).position_open = false := by
  have h1 : btStep defaultBacktestConfig series5 btInit 0 (-0.002)
      = { position_open := true, entry_rate := -0.002, entry_idx := 0, trades := [],
          total_pnl := 0, total_funding := 0, total_costs := 2 } := by
    norm_num [btStep, btInit, defaultBacktestConfig, BTState.mk.injEq]
  have h2 : btStep defaultBacktestConfig series5
      { position_open := true, entry_rate := -0.002, entry_idx := 0, trades := [],
        total_pnl := 0, total_funding := 0, total_costs := 2 } 1 (-0.0018)
      = { position_open := true, entry_rate := -0.002, entry_idx := 0, trades := [],
          total_pnl := 0, total_funding := 1.8, total_costs := 2.274 } := by
    norm_num [btStep, defaultBacktestConfig, BTState.mk.injEq]
  have h3 : btStep defaultBacktestConfig series5
      { position_open := true, entry_rate := -0.002, entry_idx := 0, trades := [],
        total_pnl := 0, total_funding := 1.8, total_costs := 2.274 } 2 (-0.0002)
      = { position_open := false, entry_rate := -0.002, entry_idx := 0,
          trades := [{ entry_idx := 0, exit_idx := 2, periods := 2,
                       avg_funding := -0.002, funding_collected := 4,
                       costs := 2.948, pnl := 1.052, pnl_pct := 0.1052 }],
          total_pnl := 1.052, total_funding := 2, total_costs := 2.948 } := by
    norm_num [btStep, defaultBacktestConfig, BTState.mk.injEq, Trade.mk.injEq,
      tradeFunding, series5, List.range']
  have h4 : btStep defaultBacktestConfig series5
      { position_open := false, entry_rate := -0.002, entry_idx := 0,
        trades := [{ entry_idx := 0, exit_idx := 2, periods := 2,
                     avg_funding := -0.002, funding_collected := 4,
                     costs := 2.948, pnl := 1.052, pnl_pct := 0.1052 }],
        total_pnl := 1.052, total_funding := 2, total_costs := 2.948 } 3 0
      = { position_open := false, entry_rate := -0.002, entry_idx := 0,
          trades := [{ entry_idx := 0, exit_idx := 2, periods := 2,
                       avg_funding := -0.002, funding_collected := 4,
                       costs := 2.948, pnl := 1.052, pnl_pct := 0.1052 }],
          total_pnl := 1.052, total_funding := 2, total_costs := 2.948 } := by
    norm_num [btStep, defaultBacktestConfig, BTState.mk.injEq]
  have efin : btFinal defaultBacktestConfig series5
      = { position_open := false, entry_rate := -0.002, entry_idx := 0,
          trades := [{ entry_idx := 0, exit_idx := 2, periods := 2,
                       avg_funding := -0.002, funding_collected := 4,
                       costs := 2.948, pnl := 1.052, pnl_pct := 0.1052 }],
          total_pnl := 1.052, total_funding := 2, total_costs := 2.948 } := by
    show btGo defaultBacktestConfig series5 1 [-0.0018, -0.0002, 0]
        (btStep defaultBacktestConfig series5 btInit 0 (-0.002)) = _
    rw [h1]
    show btGo defaultBacktestConfig series5 2 [-0.0002, 0]
        (btStep defaultBacktestConfig series5
          { position_open := true, entry_rate := -0.002, entry_idx := 0, trades := [],
            total_pnl := 0, total_funding := 0, total_costs := 2 } 1 (-0.0018)) = _
    rw [h2]
    show btGo defaultBacktestConfig series5 3 [0]
        (btStep defaultBacktestConfig series5
          { position_open := true, entry_rate := -0.002, entry_idx := 0, trades := [],
            total_pnl := 0, total_funding := 1.8, total_costs := 2.274 } 2 (-0.0002)) = _
    rw [h3]
    show btGo defaultBacktestConfig series5 4 []
        (btStep defaultBacktestConfig series5
          { position_open := false, entry_rate := -0.002, entry_idx := 0,
            trades := [{ entry_idx := 0, exit_idx := 2, periods := 2,
                         avg_funding := -0.002, funding_collected := 4,
                         costs := 2.948, pnl := 1.052, pnl_pct := 0.1052 }],
            total_pnl := 1.052, total_funding := 2, total_costs := 2.948 } 3 0) = _
    rw [h4]
    rfl
  constructor
  · have hne : series5.isEmpty = false := rfl
    simp only [run_backtest, hne, Bool.false_eq_true, if_false, efin]
    norm_num [BacktestResult.mk.injEq, Trade.mk.injEq, series5]
  · rw [efin]

/-- Claim C7. On any non-empty series whose rates never drop strictly below
the entry threshold, run_backtest opens nothing, completes zero trades and
reports the defined neutral value 0 for pnl_per_trade, win_rate and
avg_hold_periods (the zero-trade guards of the source), raising no
division-by-zero fault. -/
theorem run_backtest_no_entry (cfg : BacktestConfig) (rates : List ℚ)
    (hne : rates ≠ []) (h : ∀ r ∈ rates, ¬ r < cfg.entry_threshold) :
    run_backtest cfg rates = some
      { data_points := rates.length
        total_trades := 0
        total_funding := 0
        total_costs := 0
        total_pnl := 0
        pnl_per_trade := 0
        win_rate := 0
        avg_hold_periods := 0
        trades := [] } := by
  have hfin : btFinal cfg rates = btInit := btGo_no_entry cfg rates rates 0 h
  unfold run_backtest
  rw [if_neg (by rw [List.isEmpty_iff]; exact hne)]
  rw [hfin]
  rfl

/-- Witness for C7 at the concrete one-element series [0] with the default
configuration (0 is not below the entry threshold -0.0015). -/
theorem run_backtest_no_entry_witness :
    run_backtest defaultBacktestConfig [0] = some
      { data_points := 1
        total_trades := 0
        total_funding := 0
        total_costs := 0
        total_pnl := 0
        pnl_per_trade := 0
        win_rate := 0
        avg_hold_periods := 0
        trades := [] } :=
  run_backtest_no_entry defaultBacktestConfig [0] (by decide)
    (by with_unfolding_all decide)

/-- Claim C6 counterexample. With entry cost and slippage set to zero, the
one-element series [-0.002] (which opens a position that stays open at the
end of the data) produces exactly the same run_backtest result as the
series [0] (which never opens anything): the returned metrics dict carries
no still-open report, so a position still open at the end is silently
dropped from the result, not reported separately. -/
theorem run_backtest_open_position_not_reported :
    run_backtest cfgNoEntryCost [-0.002] = run_backtest cfgNoEntryCost [0]
    ∧ (btFinal cfgNoEntryCost [-0.002]).position_open = true
    ∧ (btFinal cfgNoEntryCost [0]).position_open = false := by
  have h1 : btStep cfgNoEntryCost [-0.002] btInit 0 (-0.002)
      = { position_open := true, entry_rate := -0.002, entry_idx := 0, trades := [],
          total_pnl := 0, total_funding := 0, total_costs := 0 } := by
    norm_num [btStep, btInit, cfgNoEntryCost, defaultBacktestConfig, BTState.mk.injEq]
  have h2 : btStep cfgNoEntryCost [0] btInit 0 0 = btInit := by
    norm_num [btStep, btInit, cfgNoEntryCost, defaultBacktestConfig]
  have e1 : btFinal cfgNoEntryCost [-0.002]
      = { position_open := true, entry_rate := -0.002, entry_idx := 0, trades := [],
          total_pnl := 0, total_funding := 0, total_costs := 0 } := by
    show btGo cfgNoEntryCost [-0.002] 1 [] (btStep cfgNoEntryCost [-0.002] btInit 0 (-0.002)) = _
    rw [h1]
    rfl
  have e2 : btFinal cfgNoEntryCost [0] = btInit := by
    show btGo cfgNoEntryCost [0] 1 [] (btStep cfgNoEntryCost [0] btInit 0 0) = _
    rw [h2]
    rfl
  refine ⟨?_, ?_, ?_⟩
  · unfold run_backtest
    rw [if_neg (by decide), if_neg (by decide), e1, e2]
    rfl
  · rw [e1]
  · rw [e2]
    rfl

/-- Claim C6 amended part. For every configuration and every input series,
the final total_pnl equals the sum of the pnl entries of the completed
trades: a position still open at the end has contributed no trade record
and no realized P&L to the statistics. -/
theorem still_open_position_excluded (cfg : BacktestConfig) (rates : List ℚ) :
    (btFinal cfg rates).total_pnl
      = ((btFinal cfg rates).trades.map Trade.pnl).sum :=
  btGo_pnl_sum cfg rates rates 0 btInit rfl

/-- Claim C10. When the run ends with no position open, every completed
completed trade has funding_collected equal to the funding sum over entry
index through exit index inclusive (so it contains the funding of the entry
period itself), while the
running total_funding accrued funding only at indices strictly after each
entry; hence the per-trade sums exceed total_funding by exactly the sum over the
trades of the entry-period funding -avg_funding * position_size. -/
theorem backtest_trade_funding_accounting (cfg : BacktestConfig)
    (rates : List ℚ) (h : (btFinal cfg rates).position_open = false) :
    (∀ t ∈ (btFinal cfg rates).trades,
        t.funding_collected = tradeFunding cfg rates t.entry_idx t.exit_idx)
    ∧ fcSum (btFinal cfg rates).trades
        = (btFinal cfg rates).total_funding
          + entrySum cfg (btFinal cfg rates).trades := by
  obtain ⟨hwf, hclosed, _⟩ := btFinal_inv cfg rates
  exact ⟨hwf, hclosed h⟩

/-- Witness for C10 on the series [-0.002, -0.0002] with the default
configuration: one trade, opened at index 0 and closed at index 1. Its
funding_collected is 2.2 while total_funding is 0.2: the difference is
exactly the entry-period funding 2 = -(-0.002) * 1000. -/
theorem backtest_trade_funding_accounting_witness :
    ((∀ t ∈ (btFinal defaultBacktestConfig [-0.002, -0.0002]).trades,
        t.funding_collected
          = tradeFunding defaultBacktestConfig [-0.002, -0.0002] t.entry_idx t.exit_idx)
      ∧ fcSum (btFinal defaultBacktestConfig [-0.002, -0.0002]).trades
          = (btFinal defaultBacktestConfig [-0.002, -0.0002]).total_funding
            + entrySum defaultBacktestConfig
                (btFinal defaultBacktestConfig [-0.002, -0.0002]).trades)
    ∧ fcSum (btFinal defaultBacktestConfig [-0.002, -0.0002]).trades = 2.2
    ∧ (btFinal defaultBacktestConfig [-0.002, -0.0002]).total_funding = 0.2 := by
  have h1 : btStep defaultBacktestConfig [-0.002, -0.0002] btInit 0 (-0.002)
      = { position_open := true, entry_rate := -0.002, entry_idx := 0, trades := [],
          total_pnl := 0, total_funding := 0, total_costs := 2 } := by
    norm_num [btStep, btInit, defaultBacktestConfig, BTState.mk.injEq]
  have h2 : btStep defaultBacktestConfig [-0.002, -0.0002]
      { position_open := true, entry_rate := -0.002, entry_idx := 0, trades := [],
        total_pnl := 0, total_funding := 0, total_costs := 2 } 1 (-0.0002)
      = { position_open := false, entry_rate := -0.002, entry_idx := 0,
          trades := [{ entry_idx := 0, exit_idx := 1, periods := 1,
                       avg_funding := -0.002, funding_collected := 2.2,
                       costs := 2.674, pnl := -0.474, pnl_pct := -0.0474 }],
          total_pnl := -0.474, total_funding := 0.2, total_costs := 2.674 } := by
    norm_num [btStep, defaultBacktestConfig, BTState.mk.injEq, Trade.mk.injEq,
      tradeFunding, List.range']
  have efin : btFinal defaultBacktestConfig [-0.002, -0.0002]
      = { position_open := false, entry_rate := -0.002, entry_idx := 0,
          trades := [{ entry_idx := 0, exit_idx := 1, periods := 1,
                       avg_funding := -0.002, funding_collected := 2.2,
                       costs := 2.674, pnl := -0.474, pnl_pct := -0.0474 }],
          total_pnl := -0.474, total_funding := 0.2, total_costs := 2.674 } := by
    show btGo defaultBacktestConfig [-0.002, -0.0002] 1 [-0.0002]
        (btStep defaultBacktestConfig [-0.002, -0.0002] btInit 0 (-0.002)) = _
    rw [h1]
    show btGo defaultBacktestConfig [-0.002, -0.0002] 2 []
        (btStep defaultBacktestConfig [-0.002, -0.0002]
          { position_open := true, entry_rate := -0.002, entry_idx := 0, trades := [],
            total_pnl := 0, total_funding := 0, total_costs := 2 } 1 (-0.0002)) = _
    rw [h2]
    rfl
  refine ⟨backtest_trade_funding_accounting defaultBacktestConfig [-0.002, -0.0002]
      (by rw [efin]), ?_, ?_⟩
  · rw [efin]
    norm_num [fcSum]
  · rw [efin]

/-- Claim C3. Every observation with negative rate that passes the
whitelist and minimum-funding-rate filters yields an Opportunity whose cost
and yield fields obey exactly the source formulas: entry 2 x taker fee,
exit 2 x maker fee, slippage 2 x slippage estimate, borrow
default_borrow_apr / (3 * 365), net_yield_8h = (-rate) - borrow -
(entry + exit + slippage) / 3 and net_yield_annualized = net_yield_8h *
3 * 365 * 100. The right-hand sides mention only the rate and the CostModel
(with the fixed hold of 3 periods), so net_yield_annualized is a pure
deterministic function of those inputs. -/
theorem calculate_opportunity_formulas (config : Config) (rate_data : RateData)
    (h1 : rate_data.rate < 0) (h2 : is_whitelisted config rate_data.symbol = true)
    (h3 : rate_data.rate ≤ config.trading.min_funding_rate) :
    ∃ opp, calculate_opportunity config rate_data = some opp
      ∧ opp.entry_cost = 2 * (get_fees config.costs rate_data.exchange).2
      ∧ opp.exit_cost = 2 * (get_fees config.costs rate_data.exchange).1
      ∧ opp.slippage_cost = 2 * config.costs.slippage_estimate
      ∧ opp.borrow_cost_8h = config.costs.default_borrow_apr / (3 * 365)
      ∧ opp.net_yield_8h = (-rate_data.rate) - opp.borrow_cost_8h
          - (opp.entry_cost + opp.exit_cost + opp.slippage_cost) / 3
      ∧ opp.net_yield_annualized = opp.net_yield_8h * 3 * 365 * 100 := by
  unfold calculate_opportunity
  rw [if_neg (not_le.mpr h1), if_neg (not_not_intro h2), if_neg (not_lt.mpr h3)]
  refine ⟨_, rfl, ?_, rfl, ?_, rfl, rfl, rfl⟩
  · rfl
  · ring

/-- Witness for C3 at the rate record (binance, BTCUSDT, -0.002) with the
default configuration. -/
theorem calculate_opportunity_formulas_witness :
    ∃ opp, calculate_opportunity defaultConfig
        { exchange := "binance", symbol := "BTCUSDT", rate := -0.002 } = some opp
      ∧ opp.entry_cost = 2 * (get_fees defaultConfig.costs "binance").2
      ∧ opp.exit_cost = 2 * (get_fees defaultConfig.costs "binance").1
      ∧ opp.slippage_cost = 2 * defaultConfig.costs.slippage_estimate
      ∧ opp.borrow_cost_8h = defaultConfig.costs.default_borrow_apr / (3 * 365)
      ∧ opp.net_yield_8h = (-(-0.002 : ℚ)) - opp.borrow_cost_8h
          - (opp.entry_cost + opp.exit_cost + opp.slippage_cost) / 3
      ∧ opp.net_yield_annualized = opp.net_yield_8h * 3 * 365 * 100 :=
  calculate_opportunity_formulas defaultConfig
    { exchange := "binance", symbol := "BTCUSDT", rate := -0.002 }
    (by norm_num) (by decide) (by norm_num [defaultConfig, defaultTrading])

/-- Claim C4 amended. score_all returns the scored opportunities sorted
descending by net_yield_annualized (a permutation of the filtered list);
equal-yield opportunities keep their input order unchanged (the sort of
Python is stable): no liquidity_score or (exchange, symbol) tie-break is
applied. -/
theorem score_all_sorted_stable (config : Config) (rates : List RateData) :
    (score_all config rates).Pairwise
      (fun a b => b.net_yield_annualized ≤ a.net_yield_annualized)
    ∧ (score_all config rates).Perm (scoreFilter config rates)
    ∧ ∀ q : ℚ, (score_all config rates).filter
          (fun o => o.net_yield_annualized == q)
        = (scoreFilter config rates).filter
          (fun o => o.net_yield_annualized == q) :=
  ⟨stableSortDesc_pairwise (fun x => x.net_yield_annualized) (scoreFilter config rates),
   stableSortDesc_perm (fun x => x.net_yield_annualized) (scoreFilter config rates),
   fun q => filter_stableSortDesc (fun x => x.net_yield_annualized) q
     (scoreFilter config rates)⟩

/-- Claim C4 counterexample. The records (binance, ADAUSDT, -0.003) and
(binance, BTCUSDT, -0.003), scored with the default configuration, produce
two opportunities with identical net_yield_annualized 1091/5 = 218.2 but
liquidity scores 0.5 (ADA) and 0.9 (BTC); score_all keeps the input order
ADA before BTC, so equal-yield entries are not ordered by descending
liquidity_score (nor by (exchange, symbol): the sort key is
net_yield_annualized alone and the Python sort is stable). -/
theorem score_all_tie_not_reordered :
    ((score_all defaultConfig [adaRD, btcRD]).map Opportunity.base_asset
      = ["ADA", "BTC"])
    ∧ ((score_all defaultConfig [adaRD, btcRD]).map Opportunity.net_yield_annualized
      = [1091/5, 1091/5])
    ∧ ((score_all defaultConfig [adaRD, btcRD]).map Opportunity.liquidity_score
      = [1/2, 9/10]) := by
  have ha : calculate_opportunity defaultConfig adaRD = some
      { exchange := "binance", symbol := "ADAUSDT", base_asset := "ADA",
        funding_rate := -0.003, funding_annualized := -328.5,
        entry_cost := 0.0008, exit_cost := 0.0004, slippage_cost := 0.001,
        borrow_cost_8h := 1/3650, net_yield_8h := 1091/547500,
        net_yield_annualized := 1091/5, liquidity_score := 0.5 } := by
    have hw : is_whitelisted defaultConfig "ADAUSDT" = true := by decide
    have hx : extract_base_asset "ADAUSDT" = "ADA" := by decide
    have hm : majorAssets.contains "ADA" = false := by decide
    have hm2 : ¬ ("ADA" ∈ majorAssets) := by decide
    have hmf : defaultConfig.trading.min_funding_rate = -0.0015 := rfl
    have hsl : defaultConfig.costs.slippage_estimate = 0.0005 := rfl
    have hba : defaultConfig.costs.default_borrow_apr = 0.30 := rfl
    have hfees : get_fees defaultConfig.costs "binance" = (0.0002, 0.0004) := rfl
    norm_num [calculate_opportunity, adaRD, hw, hx, hm, hm2, hmf, hsl, hba, hfees,
      Opportunity.mk.injEq]
  have hb : calculate_opportunity defaultConfig btcRD = some
      { exchange := "binance", symbol := "BTCUSDT", base_asset := "BTC",
        funding_rate := -0.003, funding_annualized := -328.5,
        entry_cost := 0.0008, exit_cost := 0.0004, slippage_cost := 0.001,
        borrow_cost_8h := 1/3650, net_yield_8h := 1091/547500,
        net_yield_annualized := 1091/5, liquidity_score := 0.9 } := by
    have hw : is_whitelisted defaultConfig "BTCUSDT" = true := by decide
    have hx : extract_base_asset "BTCUSDT" = "BTC" := by decide
    have hm : majorAssets.contains "BTC" = true := by decide
    have hm2 : "BTC" ∈ majorAssets := by decide
    have hmf : defaultConfig.trading.min_funding_rate = -0.0015 := rfl
    have hsl : defaultConfig.costs.slippage_estimate = 0.0005 := rfl
    have hba : defaultConfig.costs.default_borrow_apr = 0.30 := rfl
    have hfees : get_fees defaultConfig.costs "binance" = (0.0002, 0.0004) := rfl
    norm_num [calculate_opportunity, btcRD, hw, hx, hm, hm2, hmf, hsl, hba, hfees,
      Opportunity.mk.injEq]
  have hmin : defaultConfig.trading.min_net_yield_pct = 50 := by
    norm_num [defaultConfig, defaultTrading]
  have hfilter : scoreFilter defaultConfig [adaRD, btcRD] =
      [{ exchange := "binance", symbol := "ADAUSDT", base_asset := "ADA",
         funding_rate := -0.003, funding_annualized := -328.5,
         entry_cost := 0.0008, exit_cost := 0.0004, slippage_cost := 0.001,
         borrow_cost_8h := 1/3650, net_yield_8h := 1091/547500,
         net_yield_annualized := 1091/5, liquidity_score := 0.5 },
       { exchange := "binance", symbol := "BTCUSDT", base_asset := "BTC",
         funding_rate := -0.003, funding_annualized := -328.5,
         entry_cost := 0.0008, exit_cost := 0.0004, slippage_cost := 0.001,
         borrow_cost_8h := 1/3650, net_yield_8h := 1091/547500,
         net_yield_annualized := 1091/5, liquidity_score := 0.9 }] := by
    norm_num [scoreFilter, List.filterMap_cons, ha, hb, hmin]
  have hsort : score_all defaultConfig [adaRD, btcRD] =
      [{ exchange := "binance", symbol := "ADAUSDT", base_asset := "ADA",
         funding_rate := -0.003, funding_annualized := -328.5,
         entry_cost := 0.0008, exit_cost := 0.0004, slippage_cost := 0.001,
         borrow_cost_8h := 1/3650, net_yield_8h := 1091/547500,
         net_yield_annualized := 1091/5, liquidity_score := 0.5 },
       { exchange := "binance", symbol := "BTCUSDT", base_asset := "BTC",
         funding_rate := -0.003, funding_annualized := -328.5,
         entry_cost := 0.0008, exit_cost := 0.0004, slippage_cost := 0.001,
         borrow_cost_8h := 1/3650, net_yield_8h := 1091/547500,
         net_yield_annualized := 1091/5, liquidity_score := 0.9 }] := by
    unfold score_all
    rw [hfilter]
    norm_num [stableSortDesc, insertStableDesc]
  rw [hsort]
  norm_num

/-- Claim C8. Base-asset extraction strips the matching suffix from the
fixed list USDT, USD, PERP, -USDT-SWAP, -USD-SWAP. No symbol can end in two
distinct suffixes of this list, so checking in source order and checking
longest-first give the same answer on every input: the precedence reading
of the spec and the source loop agree extensionally; monitor.extract_base is
the identical function; in particular BTC-USDT-SWAP resolves to BTC, not
BTC-USDT. -/
theorem extract_base_asset_spec :
    (∀ symbol, extract_base_asset symbol = extract_base_asset_longest_first symbol)
    ∧ (∀ symbol, extract_base symbol = extract_base_asset symbol)
    ∧ extract_base_asset "BTC-USDT-SWAP" = "BTC"
    ∧ extract_base_asset "BTC-USDT-SWAP" ≠ "BTC-USDT" := by
  refine ⟨?_, fun _ => rfl, by decide, by decide⟩
  intro s
  unfold extract_base_asset extract_base_asset_longest_first suffixList
  by_cases h1 : pyEndsWith s "USDT" = true
  · have h4 : pyEndsWith s "-USDT-SWAP" = false := by
      cases h4x : pyEndsWith s "-USDT-SWAP"
      · rfl
      · exact (suffix_excl (by decide) (by decide) h1 h4x).elim
    have h5 : pyEndsWith s "-USD-SWAP" = false := by
      cases h5x : pyEndsWith s "-USD-SWAP"
      · rfl
      · exact (suffix_excl (by decide) (by decide) h1 h5x).elim
    simp [List.find?_cons, h1, h4, h5]
  · rw [Bool.not_eq_true] at h1
    by_cases h2 : pyEndsWith s "USD" = true
    · have h4 : pyEndsWith s "-USDT-SWAP" = false := by
        cases h4x : pyEndsWith s "-USDT-SWAP"
        · rfl
        · exact (suffix_excl (by decide) (by decide) h2 h4x).elim
      have h5 : pyEndsWith s "-USD-SWAP" = false := by
        cases h5x : pyEndsWith s "-USD-SWAP"
        · rfl
        · exact (suffix_excl (by decide) (by decide) h2 h5x).elim
      simp [List.find?_cons, h1, h2, h4, h5]
    · rw [Bool.not_eq_true] at h2
      by_cases h3 : pyEndsWith s "PERP" = true
      · have h4 : pyEndsWith s "-USDT-SWAP" = false := by
          cases h4x : pyEndsWith s "-USDT-SWAP"
          · rfl
          · exact (suffix_excl (by decide) (by decide) h3 h4x).elim
        have h5 : pyEndsWith s "-USD-SWAP" = false := by
          cases h5x : pyEndsWith s "-USD-SWAP"
          · rfl
          · exact (suffix_excl (by decide) (by decide) h3 h5x).elim
        simp [List.find?_cons, h1, h2, h3, h4, h5]
      · rw [Bool.not_eq_true] at h3
        by_cases h4 : pyEndsWith s "-USDT-SWAP" = true
        · have h5 : pyEndsWith s "-USD-SWAP" = false := by
            cases h5x : pyEndsWith s "-USD-SWAP"
            · rfl
            · exact (suffix_excl (by decide) (by decide) h4 h5x).elim
          simp [List.find?_cons, h1, h2, h3, h4, h5]
        · rw [Bool.not_eq_true] at h4
          by_cases h5 : pyEndsWith s "-USD-SWAP" = true
          · simp [List.find?_cons, h1, h2, h3, h4, h5]
          · rw [Bool.not_eq_true] at h5
            simp [List.find?_cons, h1, h2, h3, h4, h5]

/-- Claim C1 counterexample. With clients (binance fills, bybit raises
boom) the open is a leg imbalance: the long leg filled, the short did not.
open_position reports exactly Except.error (orderError "boom") - the
propagated exception of the short leg itself - and the same fault value is
produced when
both legs raise boom (no leg filled, no imbalance). The reported fault
therefore does not distinguish a leg imbalance from an ordinary double
failure: no distinct LegImbalanceError is raised, and indeed no such
exception class exists anywhere in the source. -/
theorem open_position_fault_not_distinct :
    open_position stShortFails "binance" "bybit" "SOLUSDT" "SOL" 1000 (-0.002) 0
      = (stShortFails, Except.error (ExecError.orderError "boom"))
    ∧ open_position stBothFail "binance" "bybit" "SOLUSDT" "SOL" 1000 (-0.002) 0
      = (stBothFail, Except.error (ExecError.orderError "boom")) :=
  ⟨rfl, rfl⟩

/-- Claim C1 amended. Whenever place_order succeeds on the long leg and
place_order raises e on the short leg, open_position propagates that exception
unchanged as orderError e - a non-silent fault, though not a dedicated
LegImbalanceError - returns no ArbPosition, and leaves the executor state
(in particular active_positions) untouched. -/
theorem open_position_short_leg_fault (st : ExecState)
    (long_exchange short_exchange symbol base_asset : String)
    (size_usd funding_rate : ℚ) (now : ℕ)
    (lc sc : Client) (lr : Order) (e : String)
    (h1 : st.clients.lookup long_exchange = some lc)
    (h2 : st.clients.lookup short_exchange = some sc)
    (h3 : lc.place_order (openLongOrder long_exchange symbol (size_usd / 100))
        = Except.ok lr)
    (h4 : sc.place_order (openShortOrder short_exchange symbol (size_usd / 100))
        = Except.error e) :
    open_position st long_exchange short_exchange symbol base_asset
        size_usd funding_rate now
      = (st, Except.error (ExecError.orderError e)) := by
  unfold open_position
  rw [h1, h2]
  dsimp only
  rw [h3, h4]

/-- Witness for the C1 amended theorem at the concrete state stShortFails. -/
theorem open_position_short_leg_fault_witness :
    open_position stShortFails "binance" "bybit" "SOLUSDT" "SOL" 1000 (-0.002) 5
      = (stShortFails, Except.error (ExecError.orderError "boom")) :=
  open_position_short_leg_fault stShortFails "binance" "bybit" "SOLUSDT" "SOL"
    1000 (-0.002) 5 fillClient boomClient _ "boom" rfl rfl rfl rfl

/-- Claim C2 counterexample. With clients (binance fills in full, bybit
reports filling half), open_position succeeds: it returns an ArbPosition
whose long leg holds 10 units and whose short leg holds 5, stores it in
active_positions with status open, and raises no fault of any kind - the
delta-neutrality divergence between the two filled sizes is silently
accepted (the source compares the two filled sizes nowhere and has no
tolerance setting). -/
theorem open_position_accepts_mismatched_legs :
    (open_position stHalfShort "binance" "bybit" "SOLUSDT" "SOL" 1000 (-0.002) 7).2
      = Except.ok posMismatch
    ∧ posMismatch.long_leg.size = 10
    ∧ posMismatch.short_leg.size = 5
    ∧ posMismatch.status = "open"
    ∧ (open_position stHalfShort "binance" "bybit" "SOLUSDT" "SOL" 1000 (-0.002) 7).1.active_positions
      = [("arb_7", posMismatch)] := by
  refine ⟨rfl, ?_, ?_, rfl, rfl⟩
  · show (1000 : ℚ) / 100 = 10
    norm_num
  · show (1000 : ℚ) / 100 / 2 = 5
    norm_num

/-- Claim C2 amended. Whenever the place_order calls of both legs return,
open_position succeeds unconditionally: the resulting ArbPosition records
the reported filled size of each leg verbatim, is stored in active_positions and
returned with status open. No tolerance comparison of the two filled sizes
exists, so a notional-size divergence between the legs is accepted
silently instead of being surfaced as a fault. -/
theorem open_position_no_size_check (st : ExecState)
    (long_exchange short_exchange symbol base_asset : String)
    (size_usd funding_rate : ℚ) (now : ℕ)
    (lc sc : Client) (lr sr : Order)
    (h1 : st.clients.lookup long_exchange = some lc)
    (h2 : st.clients.lookup short_exchange = some sc)
    (h3 : lc.place_order (openLongOrder long_exchange symbol (size_usd / 100))
        = Except.ok lr)
    (h4 : sc.place_order (openShortOrder short_exchange symbol (size_usd / 100))
        = Except.ok sr) :
    open_position st long_exchange short_exchange symbol base_asset
        size_usd funding_rate now
      = ({ st with active_positions := (dictInsert st.active_positions
            ("arb_" ++ toString now)
            (mkArbPosition long_exchange short_exchange symbol base_asset
              funding_rate now lr sr)) },
         Except.ok (mkArbPosition long_exchange short_exchange symbol base_asset
            funding_rate now lr sr))
    ∧ (mkArbPosition long_exchange short_exchange symbol base_asset
        funding_rate now lr sr).long_leg.size = lr.filled_size
    ∧ (mkArbPosition long_exchange short_exchange symbol base_asset
        funding_rate now lr sr).short_leg.size = sr.filled_size
    ∧ (mkArbPosition long_exchange short_exchange symbol base_asset
        funding_rate now lr sr).status = "open" := by
  refine ⟨?_, rfl, rfl, rfl⟩
  unfold open_position
  rw [h1, h2]
  dsimp only
  rw [h3, h4]
  rfl

/-- Witness for the C2 amended theorem at the concrete state stHalfShort,
where the two reported filled sizes differ (10 against 5). -/
theorem open_position_no_size_check_witness :
    open_position stHalfShort "binance" "bybit" "SOLUSDT" "SOL" 1000 (-0.002) 7
      = ({ stHalfShort with active_positions := (dictInsert
            stHalfShort.active_positions ("arb_" ++ toString 7) posMismatch) },
         Except.ok posMismatch)
    ∧ posMismatch.long_leg.size
      = (1000 : ℚ) / 100
    ∧ posMismatch.short_leg.size
      = (1000 : ℚ) / 100 / 2
    ∧ posMismatch.status = "open" :=
  open_position_no_size_check stHalfShort "binance" "bybit" "SOLUSDT" "SOL"
    1000 (-0.002) 7 fillClient halfClient _ _ rfl rfl rfl rfl

/-- Claim C9. close_position on an id that is not a key of
active_positions raises the ValueError of the source and leaves the
executor state - in particular active_positions - unchanged. On a present
id whose two closing orders both fill, it marks the position closed,
deletes the id from active_positions and returns the summary dict carrying
the total_funding_collected and total_pnl of that position. -/
theorem close_position_spec (st : ExecState) (pid : String) :
    (st.active_positions.lookup pid = none →
      close_position st pid
        = (st, Except.error (ExecError.valueError
            ("Position " ++ pid ++ " not found"))))
    ∧ (∀ (pos : ArbPosition) (lc sc : Client) (lr sr : Order),
        st.active_positions.lookup pid = some pos →
        st.clients.lookup pos.long_leg.exchange = some lc →
        st.clients.lookup pos.short_leg.exchange = some sc →
        lc.place_order (closeLongOrder pos) = Except.ok lr →
        sc.place_order (closeShortOrder pos) = Except.ok sr →
        close_position st pid
          = ({ st with active_positions :=
                (st.active_positions.eraseP (fun p => p.1 == pid)) },
             Except.ok ({ pos with status := "closed" },
               { pos_id := pid
                 total_funding := pos.total_funding_collected
                 total_pnl := pos.total_pnl }))) := by
  constructor
  · intro h
    unfold close_position
    rw [h]
  · intro pos lc sc lr sr h hl hs h3 h4
    unfold close_position
    rw [h]
    dsimp only
    rw [hl, hs]
    dsimp only
    rw [h3, h4]

/-- Witness for C9 at the concrete state stWithPos: an unknown id raises
and changes nothing; closing p1 (both legs fill on the simulated clients)
removes it and returns its funding 3.5 and pnl 1.25 in the summary. -/
theorem close_position_spec_witness :
    close_position stWithPos "nope"
      = (stWithPos, Except.error (ExecError.valueError
          "Position nope not found"))
    ∧ close_position stWithPos "p1"
      = ({ stWithPos with active_positions := [] },
         Except.ok ({ posOpen1 with status := "closed" },
           { pos_id := "p1", total_funding := 3.5, total_pnl := 1.25 })) :=
  ⟨(close_position_spec stWithPos "nope").1 rfl,
   (close_position_spec stWithPos "p1").2 posOpen1 fillClient fillClient _ _
     rfl rfl rfl rfl rfl⟩
